import Mathlib

/-!
Verification of the Velero restore resolution and execution engine
(openshift-velero-plugin vendored API, pkg/apis/velero/v1/restore.go)
against its natural-language specification.

The data model (RestoreSpec, RestorePhase, RestoreStatus) is embedded
from restore.go.  The algorithmic components (Filter Evaluator, Identity
Rewriter, Dependency Orderer, Restore Executor, Lifecycle State Machine)
are declared in the repository only through their data model; their
behaviour is modelled from the specification, as marked on each
definition.
-/

namespace Velero

/-- Lifecycle phase of a restore; from restore.go `RestorePhase` and its
six constants New, FailedValidation, InProgress, Completed,
PartiallyFailed, Failed. -/
inductive RestorePhase where
  | new
  | failedValidation
  | inProgress
  | completed
  | partiallyFailed
  | failed
  deriving DecidableEq, Repr

/-- Label selector; from `metav1.LabelSelector` as used by
`RestoreSpec.LabelSelector`, restricted to the match-labels form the
spec requires (equality requirements over object labels). -/
structure LabelSelector where
  matchLabels : List (String × String)
  deriving DecidableEq, Repr

/-- Restore request specification; from restore.go `RestoreSpec`.
Go `[]string` slices become lists, the Go map becomes an association
list with unique keys, and the nullable pointers `*LabelSelector`,
`*bool` become `Option`. -/
structure RestoreSpec where
  backupName : String
  scheduleName : String
  includedNamespaces : List String
  excludedNamespaces : List String
  includedResources : List String
  excludedResources : List String
  namespaceMapping : List (String × String)
  labelSelector : Option LabelSelector
  restorePVs : Option Bool
  includeClusterResources : Option Bool
  deriving DecidableEq, Repr

/-- Reference to an object; from `corev1api.ObjectReference` as used by
the pod-volume error lists of `RestoreStatus` (only the identifying
fields are kept). -/
structure ObjectReference where
  refNamespace : String
  refName : String
  deriving DecidableEq, Repr

/-- Restore status; from restore.go `RestoreStatus`.  The Go `int`
counters are counts of generated messages, embedded as `Nat`. -/
structure RestoreStatus where
  phase : RestorePhase
  validationErrors : List String
  warnings : Nat
  errors : Nat
  failureReason : String
  podVolumeRestoreErrors : List ObjectReference
  podVolumeRestoreVerifyErrors : List ObjectReference
  deriving DecidableEq, Repr

/-- Modelled from the spec: the backup item catalog entries that the
Filter Evaluator consumes ("item descriptors from the backup (each with
namespace, resource kind, labels)"); the item name is needed by the
Dependency Orderer to match namespace-kind items to target namespaces.
Cluster-scoped items have no namespace (`ns = none`).  The catalog and
all downstream components are absent from the repository source, which
contains only the data model. -/
structure CatalogItem where
  itemName : String
  kind : String
  ns : Option String
  labels : List (String × String)
  deriving DecidableEq, Repr

/-- Modelled from the spec: one include/exclude dimension of the Filter
Evaluator ("if included set is non-empty, membership required; if
excluded set contains the value, item is rejected regardless of
inclusion. Empty included set means all pass"). -/
def passesSetFilter (included excluded : List String) (v : String) : Bool :=
  (included.isEmpty || included.contains v) && !excluded.contains v

/-- Modelled from the spec: label-selector matching; an absent selector
selects all, a present selector requires every match-label pair to be
among the item labels. -/
def matchesSelector : Option LabelSelector → List (String × String) → Bool
  | none, _ => true
  | some sel, lbls => sel.matchLabels.all (fun p => lbls.contains p)

/-- Modelled from the spec: the per-item selection predicate of the
Filter Evaluator.  A namespaced item must pass the namespace filter;
cluster-scoped items bypass the namespace filter entirely (their gating
by `includeClusterResources` happens in the Dependency Orderer, which
drops them when the flag is effectively false).  Every item must pass
the resource-kind filter and the label selector. -/
def itemSelected (r : RestoreSpec) (it : CatalogItem) : Bool :=
  (match it.ns with
   | none => true
   | some n => passesSetFilter r.includedNamespaces r.excludedNamespaces n)
  && passesSetFilter r.includedResources r.excludedResources it.kind
  && matchesSelector r.labelSelector it.labels

/-- Modelled from the spec: the Filter Evaluator, a pure function from
the catalog to the selected subset, order-preserving relative to catalog
order. -/
def filterEvaluate (r : RestoreSpec) (catalog : List CatalogItem) : List CatalogItem :=
  catalog.filter (itemSelected r)

/-- Modelled from the spec and the `NamespaceMapping` field comment of
restore.go: rewrite one item's namespace through the mapping; source
namespaces not in the map are restored into namespaces of the same
name, and cluster-scoped items are never rewritten. -/
def rewriteItem (mapping : List (String × String)) (it : CatalogItem) : CatalogItem :=
  match it.ns with
  | none => it
  | some n =>
    match mapping.lookup n with
    | some tgt => { it with ns := some tgt }
    | none => it

/-- Modelled from the spec: the Identity Rewriter applied to every
selected item. -/
def identityRewrite (mapping : List (String × String)) (items : List CatalogItem) :
    List CatalogItem :=
  items.map (rewriteItem mapping)

/-- Effective value of the tri-state `IncludeClusterResources` flag;
from the restore.go field comment "If null, defaults to true". -/
def effectiveIncludeClusterResources (r : RestoreSpec) : Bool :=
  r.includeClusterResources.getD true

/-- An item is cluster-scoped when it has no namespace. -/
def isClusterScoped (it : CatalogItem) : Bool :=
  it.ns.isNone

/-- Modelled from the spec: the Dependency Orderer.  Cluster-scoped
items form a separate partition applied before namespaced items when
`includeClusterResources` is effectively true and are dropped entirely
otherwise; within each partition the relative catalog order is
preserved (stable partition).  Namespace-kind items are cluster-scoped,
so every namespace precedes the namespaced items destined for it. -/
def dependencyOrder (r : RestoreSpec) (items : List CatalogItem) : List CatalogItem :=
  (if effectiveIncludeClusterResources r then
    items.filter (fun it => isClusterScoped it)
   else [])
  ++ items.filter (fun it => !isClusterScoped it)

/-- Modelled from the spec: the full resolution pipeline, Filter
Evaluator then Identity Rewriter then Dependency Orderer. -/
def runPipeline (r : RestoreSpec) (catalog : List CatalogItem) : List CatalogItem :=
  dependencyOrder r (identityRewrite r.namespaceMapping (filterEvaluate r catalog))

/-- Modelled from the spec: outcome of the external object-apply
collaborator, `applyObject(targetDescriptor) -> (warning|error|ok)`. -/
inductive ApplyOutcome where
  | ok
  | warn
  | err
  deriving DecidableEq, Repr

/-- Result accumulated by the Restore Executor: the items successfully
applied (in application order) and the warning and error counts. -/
structure ExecResult where
  applied : List CatalogItem
  warnings : Nat
  errors : Nat
  deriving DecidableEq, Repr

/-- Modelled from the spec: the Restore Executor.  It consumes the
ordered sequence; each item failure is caught and isolated, increments
the error count, and execution continues with the next item; a benign
anomaly increments the warning count instead; successful and warned
items are applied. -/
def executeItems (ap : CatalogItem → ApplyOutcome) : List CatalogItem → ExecResult
  | [] => ⟨[], 0, 0⟩
  | it :: rest =>
    let res := executeItems ap rest
    match ap it with
    | .ok => { res with applied := it :: res.applied }
    | .warn => { res with applied := it :: res.applied, warnings := res.warnings + 1 }
    | .err => { res with errors := res.errors + 1 }

/-- Modelled from the spec: the terminal phase the Lifecycle State
Machine assigns from per-item outcomes when execution runs to
completion; Completed when the error count is zero (warnings
permitted), PartiallyFailed otherwise.  Item-level outcomes never
escalate past PartiallyFailed; Failed is reserved for structural
failures. -/
def executionPhase (res : ExecResult) : RestorePhase :=
  if res.errors = 0 then .completed else .partiallyFailed

/-- Modelled from the spec: request validation.  A request in which
both `backupName` and `scheduleName` are unset fails validation with a
populated validation-error list; exactly one of the two references must
resolve to a backup. -/
def validateRestore (r : RestoreSpec) : List String :=
  if r.backupName = "" ∧ r.scheduleName = "" then
    ["either a backup or schedule name must be specified"]
  else []

/-- Identifies the source backup resolved for a request: directly by
backup name, or indirectly via a schedule. -/
inductive BackupRef where
  | byName (nm : String)
  | bySchedule (sched : String)
  deriving DecidableEq, Repr

/-- Modelled from the spec and the `ScheduleName` field comment of
restore.go ("If specified, and BackupName is empty, Velero will restore
from the most recent successful backup created from this schedule"):
the backup reference resolution.  A non-empty `backupName` always wins;
`scheduleName` is consulted only when `backupName` is empty. -/
def resolveBackupRef (r : RestoreSpec) : Option BackupRef :=
  if r.backupName ≠ "" then some (.byName r.backupName)
  else if r.scheduleName ≠ "" then some (.bySchedule r.scheduleName)
  else none

/-- The initial status of a freshly created restore: phase New, no
validation errors, zero counts, no failure reason. -/
def initialStatus : RestoreStatus :=
  ⟨.new, [], 0, 0, "", [], []⟩

/-- A completed controller run: the final status together with the
items that were applied. -/
structure RestoreRun where
  status : RestoreStatus
  applied : List CatalogItem
  deriving DecidableEq, Repr

/-- Modelled from the spec: the whole controller flow.  Validation
failure moves the request directly to FailedValidation with the
validation errors populated and no item processed; otherwise the
pipeline output is executed item by item and the state machine records
the terminal phase and aggregate counts. -/
def runRestore (r : RestoreSpec) (catalog : List CatalogItem)
    (ap : CatalogItem → ApplyOutcome) : RestoreRun :=
  let verrs := validateRestore r
  if verrs = [] then
    let res := executeItems ap (runPipeline r catalog)
    ⟨{ initialStatus with
        phase := executionPhase res
        warnings := res.warnings
        errors := res.errors },
      res.applied⟩
  else
    ⟨{ initialStatus with
        phase := .failedValidation
        validationErrors := verrs },
      []⟩

/-- Rank of a phase along the lifecycle; each transition of the state
machine strictly increases it, which is the monotonicity invariant. -/
def phaseRank : RestorePhase → Nat
  | .new => 0
  | .failedValidation => 1
  | .inProgress => 1
  | .completed => 2
  | .partiallyFailed => 2
  | .failed => 2

/-- Modelled from the spec: the transitions of the Lifecycle State
Machine, the sole writer of `phase`, `failureReason` and the terminal
counts.  New moves to FailedValidation (with a non-empty validation
error list) or to InProgress; InProgress moves to Completed (zero
errors), PartiallyFailed (positive errors) or Failed (with a non-empty
failure reason).  FailedValidation, Completed, PartiallyFailed and
Failed are terminal. -/
inductive LifecycleStep : RestoreStatus → RestoreStatus → Prop where
  | failValidation (s : RestoreStatus) (verrs : List String)
      (hphase : s.phase = .new) (hne : verrs ≠ []) :
      LifecycleStep s { s with phase := .failedValidation, validationErrors := verrs }
  | startExecution (s : RestoreStatus) (hphase : s.phase = .new) :
      LifecycleStep s { s with phase := .inProgress }
  | complete (s : RestoreStatus) (w : Nat) (hphase : s.phase = .inProgress) :
      LifecycleStep s { s with phase := .completed, warnings := w, errors := 0 }
  | partialFail (s : RestoreStatus) (w e : Nat)
      (hphase : s.phase = .inProgress) (he : 0 < e) :
      LifecycleStep s { s with phase := .partiallyFailed, warnings := w, errors := e }
  | structuralFail (s : RestoreStatus) (reason : String)
      (hphase : s.phase = .inProgress) (hr : reason ≠ "") :
      LifecycleStep s { s with phase := .failed, failureReason := reason }

/-- A status is reachable when the state machine can produce it from
the initial status of a fresh restore. -/
def ReachableStatus (s : RestoreStatus) : Prop :=
  Relation.ReflTransGen LifecycleStep initialStatus s

/-- Concrete item used in witnesses: a pod in namespace ns1. -/
def sampleItem (nm : String) : CatalogItem :=
  ⟨nm, "pods", some "ns1", []⟩

/-- Concrete five-item catalog used in witnesses. -/
def sampleCatalog : List CatalogItem :=
  [sampleItem "a", sampleItem "b", sampleItem "c", sampleItem "d", sampleItem "e"]

/-- Concrete apply function used in witnesses: item #3 (name c) fails,
every other item succeeds. -/
def sampleApply (it : CatalogItem) : ApplyOutcome :=
  if it.itemName = "c" then .err else .ok

/-- Concrete restore request with both references empty, used in
witnesses. -/
def emptySpec : RestoreSpec :=
  ⟨"", "", [], [], [], [], [], none, none, none⟩

/-- Concrete restore request with no filters at all, used in
witnesses. -/
def openSpec : RestoreSpec :=
  ⟨"b1", "", [], [], [], [], [], none, none, none⟩

/-- Concrete two-item catalog holding one cluster-scoped and one
namespaced item, used in witnesses. -/
def mixedCatalog : List CatalogItem :=
  [⟨"crole", "clusterroles", none, []⟩, ⟨"p1", "pods", some "web", []⟩]

/-- Concrete restore request listing namespace web and resource pods in
both the included and the excluded sets, used in witnesses. -/
def vetoSpec : RestoreSpec :=
  ⟨"b1", "", ["web"], ["web"], ["pods"], ["pods"], [], none, none, none⟩

/-- Concrete item living in namespace web, used in witnesses. -/
def vetoItem : CatalogItem :=
  ⟨"p1", "pods", some "web", []⟩

/-- Concrete restore request that disables cluster-scoped resources,
used in witnesses. -/
def noClusterSpec : RestoreSpec :=
  ⟨"b1", "", [], [], [], [], [], none, none, some false⟩

/-- Concrete namespace-kind item for the target namespace web, used in
witnesses. -/
def nsKindItem : CatalogItem :=
  ⟨"web", "namespaces", none, []⟩

/-- Concrete namespaced item destined for namespace web, used in
witnesses. -/
def webPod : CatalogItem :=
  ⟨"p1", "pods", some "web", []⟩

/-- Concrete restore request in which both the backup name and the
schedule name are set, used in witnesses. -/
def bothRefsSpec : RestoreSpec :=
  ⟨"b1", "sched1", [], [], [], [], [], none, none, none⟩

/-- The error count of an executor run is the number of items whose
apply outcome is an error. -/
theorem executeItems_errors (ap : CatalogItem → ApplyOutcome) (l : List CatalogItem) :
    (executeItems ap l).errors = l.countP (fun it => ap it == ApplyOutcome.err) := by
  induction l with
  | nil => rfl
  | cons it rest ih =>
    rw [executeItems, List.countP_cons]
    cases h : ap it <;> simp [h, ih]

/-- The items applied by an executor run are exactly the items whose
apply outcome is not an error, in order. -/
theorem executeItems_applied (ap : CatalogItem → ApplyOutcome) (l : List CatalogItem) :
    (executeItems ap l).applied = l.filter (fun it => !(ap it == ApplyOutcome.err)) := by
  induction l with
  | nil => rfl
  | cons it rest ih =>
    rw [executeItems, List.filter_cons]
    cases h : ap it <;> simp [h, ih]

/-- C1: if exactly one item's apply fails with an ItemError and every
other item succeeds, the Restore Executor continues past the failing
item, every other item is applied, the final phase is PartiallyFailed
and the error count is 1; moreover item-level outcomes (errors and
warnings) never move the phase beyond PartiallyFailed. -/
theorem itemError_isolated_partiallyFailed :
    (∀ (ap : CatalogItem → ApplyOutcome) (items : List CatalogItem),
      items.countP (fun it => ap it == ApplyOutcome.err) = 1 →
      (executeItems ap items).errors = 1 ∧
      executionPhase (executeItems ap items) = RestorePhase.partiallyFailed ∧
      (executeItems ap items).applied =
        items.filter (fun it => !(ap it == ApplyOutcome.err))) ∧
    (∀ (ap : CatalogItem → ApplyOutcome) (items : List CatalogItem),
      executionPhase (executeItems ap items) = RestorePhase.completed ∨
      executionPhase (executeItems ap items) = RestorePhase.partiallyFailed) := by
  constructor
  · intro ap items h
    have herr : (executeItems ap items).errors = 1 := by
      rw [executeItems_errors, h]
    refine ⟨herr, ?_, executeItems_applied ap items⟩
    simp [executionPhase, herr]
  · intro ap items
    by_cases h : (executeItems ap items).errors = 0
    · exact Or.inl (by simp [executionPhase, h])
    · exact Or.inr (by simp [executionPhase, h])

/-- Witness for C1 at the concrete five-item catalog where only item
#3 fails: errors is 1, the phase is PartiallyFailed, and items
1, 2, 4, 5 are applied. -/
theorem itemError_isolated_partiallyFailed_witness :
    sampleCatalog.countP (fun it => sampleApply it == ApplyOutcome.err) = 1 ∧
    (executeItems sampleApply sampleCatalog).errors = 1 ∧
    executionPhase (executeItems sampleApply sampleCatalog) = RestorePhase.partiallyFailed ∧
    (executeItems sampleApply sampleCatalog).applied =
      [sampleItem "a", sampleItem "b", sampleItem "d", sampleItem "e"] := by
  have h : sampleCatalog.countP (fun it => sampleApply it == ApplyOutcome.err) = 1 := by
    decide
  obtain ⟨h1, h2, h3⟩ := itemError_isolated_partiallyFailed.1 sampleApply sampleCatalog h
  refine ⟨h, h1, h2, ?_⟩
  rw [h3]
  decide

/-- Every transition of the Lifecycle State Machine strictly increases
the phase rank. -/
theorem lifecycleStep_rank_lt (s t : RestoreStatus) (h : LifecycleStep s t) :
    phaseRank s.phase < phaseRank t.phase := by
  cases h <;> simp_all [phaseRank]

/-- Along a nonempty chain of transitions the phase rank strictly
increases, so no phase is ever revisited. -/
theorem lifecycle_transGen_rank_lt (s t : RestoreStatus)
    (h : Relation.TransGen LifecycleStep s t) :
    phaseRank s.phase < phaseRank t.phase := by
  induction h with
  | single hstep => exact lifecycleStep_rank_lt _ _ hstep
  | tail _ hstep ih => exact lt_trans ih (lifecycleStep_rank_lt _ _ hstep)

/-- Each lifecycle transition preserves the field invariants relating
validation errors and failure reason to the phase. -/
theorem lifecycleStep_preserves_invariant (s t : RestoreStatus)
    (h1 : s.validationErrors ≠ [] ↔ s.phase = RestorePhase.failedValidation)
    (h2 : s.failureReason ≠ "" ↔ s.phase = RestorePhase.failed)
    (h : LifecycleStep s t) :
    (t.validationErrors ≠ [] ↔ t.phase = RestorePhase.failedValidation) ∧
    (t.failureReason ≠ "" ↔ t.phase = RestorePhase.failed) := by
  have hve : s.phase ≠ RestorePhase.failedValidation → s.validationErrors = [] := by
    intro hp
    by_contra hc
    exact hp (h1.mp hc)
  have hfr : s.phase ≠ RestorePhase.failed → s.failureReason = "" := by
    intro hp
    by_contra hc
    exact hp (h2.mp hc)
  cases h with
  | failValidation verrs hphase hne =>
    have hf : s.failureReason = "" := hfr (by rw [hphase]; exact RestorePhase.noConfusion)
    constructor <;> simp [hne, hf]
  | startExecution hphase =>
    have hv : s.validationErrors = [] := hve (by rw [hphase]; exact RestorePhase.noConfusion)
    have hf : s.failureReason = "" := hfr (by rw [hphase]; exact RestorePhase.noConfusion)
    constructor <;> simp [hv, hf]
  | complete w hphase =>
    have hv : s.validationErrors = [] := hve (by rw [hphase]; exact RestorePhase.noConfusion)
    have hf : s.failureReason = "" := hfr (by rw [hphase]; exact RestorePhase.noConfusion)
    constructor <;> simp [hv, hf]
  | partialFail w e hphase he =>
    have hv : s.validationErrors = [] := hve (by rw [hphase]; exact RestorePhase.noConfusion)
    have hf : s.failureReason = "" := hfr (by rw [hphase]; exact RestorePhase.noConfusion)
    constructor <;> simp [hv, hf]
  | structuralFail reason hphase hr =>
    have hv : s.validationErrors = [] := hve (by rw [hphase]; exact RestorePhase.noConfusion)
    constructor <;> simp [hv, hr]

/-- Every status reachable from the initial status satisfies the field
invariants: validation errors are non-empty exactly in phase
FailedValidation, and the failure reason is set exactly in phase
Failed. -/
theorem reachable_field_invariants (s : RestoreStatus) (h : ReachableStatus s) :
    (s.validationErrors ≠ [] ↔ s.phase = RestorePhase.failedValidation) ∧
    (s.failureReason ≠ "" ↔ s.phase = RestorePhase.failed) := by
  induction h with
  | refl => constructor <;> simp [initialStatus]
  | tail hsteps hstep ih =>
    exact lifecycleStep_preserves_invariant _ _ ih.1 ih.2 hstep

/-- C2: lifecycle transitions are monotone (the phase rank strictly
increases on every step, so no phase is revisited along any chain of
transitions), and on every reachable status the validation errors are
non-empty exactly when the phase is FailedValidation while the failure
reason is set exactly when the phase is Failed. -/
theorem lifecycle_monotone_and_field_invariants :
    (∀ s t : RestoreStatus, LifecycleStep s t → phaseRank s.phase < phaseRank t.phase) ∧
    (∀ s t : RestoreStatus, Relation.TransGen LifecycleStep s t → s.phase ≠ t.phase) ∧
    (∀ s : RestoreStatus, ReachableStatus s →
      ((s.validationErrors ≠ [] ↔ s.phase = RestorePhase.failedValidation) ∧
       (s.failureReason ≠ "" ↔ s.phase = RestorePhase.failed))) := by
  refine ⟨lifecycleStep_rank_lt, ?_, reachable_field_invariants⟩
  intro s t h heq
  have := lifecycle_transGen_rank_lt s t h
  rw [heq] at this
  exact lt_irrefl _ this

/-- Witness for C2 at a concrete transition (New to InProgress) and at
the concrete reachable initial status. -/
theorem lifecycle_monotone_and_field_invariants_witness :
    phaseRank initialStatus.phase <
      phaseRank ({ initialStatus with phase := RestorePhase.inProgress } : RestoreStatus).phase ∧
    (initialStatus.validationErrors ≠ [] ↔
      initialStatus.phase = RestorePhase.failedValidation) :=
  ⟨lifecycle_monotone_and_field_invariants.1 initialStatus _
      (LifecycleStep.startExecution initialStatus rfl),
    (lifecycle_monotone_and_field_invariants.2.2 initialStatus
      Relation.ReflTransGen.refl).1⟩

/-- C3: when both the backup name and the schedule name are empty, the
run moves directly from New to FailedValidation with a non-empty
validation-error list, no item is processed, the move is a single
lifecycle transition from the initial status, and FailedValidation is
terminal (no transition leaves it). -/
theorem empty_references_fail_validation (r : RestoreSpec) (catalog : List CatalogItem)
    (ap : CatalogItem → ApplyOutcome)
    (hb : r.backupName = "") (hs : r.scheduleName = "") :
    (runRestore r catalog ap).status.phase = RestorePhase.failedValidation ∧
    (runRestore r catalog ap).status.validationErrors ≠ [] ∧
    (runRestore r catalog ap).applied = [] ∧
    LifecycleStep initialStatus (runRestore r catalog ap).status ∧
    (∀ s t : RestoreStatus, s.phase = RestorePhase.failedValidation →
      ¬ LifecycleStep s t) := by
  have hv : validateRestore r = ["either a backup or schedule name must be specified"] := by
    simp [validateRestore, hb, hs]
  have hrun : runRestore r catalog ap =
      ⟨{ initialStatus with
          phase := RestorePhase.failedValidation
          validationErrors := ["either a backup or schedule name must be specified"] },
        []⟩ := by
    simp [runRestore, hv]
  refine ⟨by rw [hrun], by rw [hrun]; simp, by rw [hrun], ?_, ?_⟩
  · rw [hrun]
    exact LifecycleStep.failValidation initialStatus
      ["either a backup or schedule name must be specified"] rfl (by simp)
  · intro s t hsp hstep
    cases hstep <;> simp_all

/-- Witness for C3 at the concrete request with both references
empty. -/
theorem empty_references_fail_validation_witness :
    emptySpec.backupName = "" ∧ emptySpec.scheduleName = "" ∧
    (runRestore emptySpec [] (fun _ => ApplyOutcome.ok)).status.phase =
      RestorePhase.failedValidation ∧
    (runRestore emptySpec [] (fun _ => ApplyOutcome.ok)).status.validationErrors ≠ [] ∧
    (runRestore emptySpec [] (fun _ => ApplyOutcome.ok)).applied = [] := by
  obtain ⟨h1, h2, h3, _, _⟩ :=
    empty_references_fail_validation emptySpec [] (fun _ => ApplyOutcome.ok) rfl rfl
  exact ⟨rfl, rfl, h1, h2, h3⟩

/-- C4: on both filter dimensions, a value in the excluded set vetoes
the item even when the same value also appears in the included set. -/
theorem exclusion_overrides_inclusion (r : RestoreSpec) (it : CatalogItem) :
    (∀ n : String, it.ns = some n → n ∈ r.excludedNamespaces →
      itemSelected r it = false) ∧
    (it.kind ∈ r.excludedResources → itemSelected r it = false) := by
  constructor
  · intro n hns hmem
    have hc : r.excludedNamespaces.contains n = true := List.elem_iff.mpr hmem
    simp only [itemSelected, hns, passesSetFilter, hc, Bool.not_true, Bool.and_false,
      Bool.false_and]
  · intro hmem
    have hc : r.excludedResources.contains it.kind = true := List.elem_iff.mpr hmem
    simp only [itemSelected, passesSetFilter, hc, Bool.not_true, Bool.and_false,
      Bool.false_and]

/-- Witness for C4 at a concrete request listing namespace web (and
resource pods) in both the included and the excluded sets. -/
theorem exclusion_overrides_inclusion_witness :
    vetoItem.ns = some "web" ∧
    "web" ∈ vetoSpec.excludedNamespaces ∧
    "web" ∈ vetoSpec.includedNamespaces ∧
    itemSelected vetoSpec vetoItem = false :=
  ⟨rfl, by decide, by decide,
    (exclusion_overrides_inclusion vetoSpec vetoItem).1 "web" rfl (by decide)⟩

/-- C5: with empty included and excluded sets on both dimensions and no
label selector, the Filter Evaluator selects the entire catalog in
catalog order. -/
theorem empty_filters_select_all (r : RestoreSpec) (catalog : List CatalogItem)
    (h1 : r.includedNamespaces = []) (h2 : r.excludedNamespaces = [])
    (h3 : r.includedResources = []) (h4 : r.excludedResources = [])
    (h5 : r.labelSelector = none) :
    filterEvaluate r catalog = catalog := by
  have hsel : ∀ it : CatalogItem, itemSelected r it = true := by
    intro it
    obtain ⟨nm, k, nso, lb⟩ := it
    cases nso <;> simp [itemSelected, passesSetFilter, matchesSelector, h1, h2, h3, h4, h5]
  rw [filterEvaluate, List.filter_eq_self]
  intro a _
  exact hsel a

/-- Witness for C5 at the concrete request with no filters and a
catalog holding one cluster-scoped and one namespaced item. -/
theorem empty_filters_select_all_witness :
    filterEvaluate openSpec mixedCatalog = mixedCatalog :=
  empty_filters_select_all openSpec mixedCatalog rfl rfl rfl rfl rfl

/-- Elements of the right part of an append falsify the predicate, so
an index holding the predicate lies in the left part. -/
theorem pred_index_lt {α : Type} (l₁ l₂ : List α) (p : α → Bool)
    (hl : ∀ x ∈ l₂, p x = false) (i : Nat) (hi : i < (l₁ ++ l₂).length)
    (hp : p ((l₁ ++ l₂).get ⟨i, hi⟩) = true) : i < l₁.length := by
  by_contra hge
  push_neg at hge
  have hmem : (l₁ ++ l₂).get ⟨i, hi⟩ ∈ l₂ := by
    rw [List.get_eq_getElem, List.getElem_append_right hge]
    exact List.getElem_mem _
  rw [hl _ hmem] at hp
  exact Bool.noConfusion hp

/-- Elements of the left part of an append falsify the predicate, so an
index holding the predicate lies in the right part. -/
theorem pred_index_ge {α : Type} (l₁ l₂ : List α) (q : α → Bool)
    (hl : ∀ x ∈ l₁, q x = false) (j : Nat) (hj : j < (l₁ ++ l₂).length)
    (hq : q ((l₁ ++ l₂).get ⟨j, hj⟩) = true) : l₁.length ≤ j := by
  by_contra hlt
  push_neg at hlt
  have hmem : (l₁ ++ l₂).get ⟨j, hj⟩ ∈ l₁ := by
    rw [List.get_eq_getElem, List.getElem_append_left hlt]
    exact List.getElem_mem _
  rw [hl _ hmem] at hq
  exact Bool.noConfusion hq

/-- In an append whose left part satisfies a predicate everywhere and
whose right part falsifies it everywhere, every index satisfying the
predicate comes strictly before every index falsifying it. -/
theorem append_partition_order {α : Type} (l₁ l₂ : List α) (p : α → Bool)
    (hl₁ : ∀ x ∈ l₁, p x = true) (hl₂ : ∀ x ∈ l₂, p x = false)
    (i j : Nat) (hi : i < (l₁ ++ l₂).length) (hj : j < (l₁ ++ l₂).length)
    (hpi : p ((l₁ ++ l₂).get ⟨i, hi⟩) = true)
    (hpj : p ((l₁ ++ l₂).get ⟨j, hj⟩) = false) : i < j := by
  have h1 : i < l₁.length := pred_index_lt l₁ l₂ p hl₂ i hi hpi
  have h2 : l₁.length ≤ j := by
    refine pred_index_ge l₁ l₂ (fun a => !p a) ?_ j hj ?_
    · intro x hx
      simp [hl₁ x hx]
    · show (!p ((l₁ ++ l₂).get ⟨j, hj⟩)) = true
      rw [hpj]
      rfl
  omega

/-- Filtering twice with the same predicate changes nothing. -/
theorem filter_filter_same {α : Type} (p : α → Bool) (l : List α) :
    (l.filter p).filter p = l.filter p := by
  induction l with
  | nil => rfl
  | cons a l ih =>
    cases h : p a <;> simp [List.filter_cons, h, ih]

/-- Filtering the negation out of a filtered list leaves nothing. -/
theorem filter_filter_not {α : Type} (p : α → Bool) (l : List α) :
    (l.filter (fun a => !p a)).filter p = [] := by
  induction l with
  | nil => rfl
  | cons a l ih =>
    cases h : p a <;> simp [List.filter_cons, h, ih]

/-- Filtering with the negation after filtering with the predicate
leaves nothing. -/
theorem filter_not_filter {α : Type} (p : α → Bool) (l : List α) :
    (l.filter p).filter (fun a => !p a) = [] := by
  induction l with
  | nil => rfl
  | cons a l ih =>
    cases h : p a <;> simp [List.filter_cons, h, ih]

/-- C6: in every Dependency Orderer output, a namespace-kind item whose
name is a target namespace occurs strictly before every namespaced item
destined for that namespace, and within each partition (cluster-scoped
and namespaced) the relative catalog order is preserved. -/
theorem namespace_items_precede_namespaced (r : RestoreSpec) (items : List CatalogItem) :
    (∀ (i j : Nat) (hi : i < (dependencyOrder r items).length)
        (hj : j < (dependencyOrder r items).length) (tn : String),
      ((dependencyOrder r items).get ⟨i, hi⟩).kind = "namespaces" →
      ((dependencyOrder r items).get ⟨i, hi⟩).ns = none →
      ((dependencyOrder r items).get ⟨i, hi⟩).itemName = tn →
      ((dependencyOrder r items).get ⟨j, hj⟩).ns = some tn →
      i < j) ∧
    (dependencyOrder r items).filter (fun it => isClusterScoped it) =
      (if effectiveIncludeClusterResources r then
        items.filter (fun it => isClusterScoped it)
       else []) ∧
    (dependencyOrder r items).filter (fun it => !isClusterScoped it) =
      items.filter (fun it => !isClusterScoped it) := by
  refine ⟨?_, ?_, ?_⟩
  · intro i j hi hj tn hkind hns hname hjns
    have hl₁ : ∀ x ∈ (if effectiveIncludeClusterResources r then
        items.filter (fun it => isClusterScoped it) else []), isClusterScoped x = true := by
      intro x hx
      cases hflag : effectiveIncludeClusterResources r
      · rw [hflag] at hx
        simp at hx
      · rw [hflag] at hx
        simp at hx
        exact hx.2
    have hl₂ : ∀ x ∈ items.filter (fun it => !isClusterScoped it),
        isClusterScoped x = false := by
      intro x hx
      have hmem := (List.mem_filter.mp hx).2
      simp at hmem
      exact hmem
    have hpi : isClusterScoped ((dependencyOrder r items).get ⟨i, hi⟩) = true := by
      unfold isClusterScoped
      rw [hns]
      rfl
    have hpj : isClusterScoped ((dependencyOrder r items).get ⟨j, hj⟩) = false := by
      unfold isClusterScoped
      rw [hjns]
      rfl
    exact append_partition_order
      (if effectiveIncludeClusterResources r then
        items.filter (fun it => isClusterScoped it) else [])
      (items.filter (fun it => !isClusterScoped it))
      isClusterScoped hl₁ hl₂ i j hi hj hpi hpj
  · cases hflag : effectiveIncludeClusterResources r <;>
      simp [dependencyOrder, hflag, List.filter_append, filter_filter_same, filter_filter_not]
  · cases hflag : effectiveIncludeClusterResources r <;>
      simp [dependencyOrder, hflag, List.filter_append, filter_filter_same, filter_not_filter]

/-- Witness for C6 at a concrete catalog holding the namespace web and
a pod destined for it: the namespace item at index 0 precedes the pod
at index 1, and the namespaced partition keeps catalog order. -/
theorem namespace_items_precede_namespaced_witness :
    (0 : Nat) < 1 ∧
    (dependencyOrder openSpec [nsKindItem, webPod]).filter (fun it => !isClusterScoped it) =
      [nsKindItem, webPod].filter (fun it => !isClusterScoped it) :=
  ⟨(namespace_items_precede_namespaced openSpec [nsKindItem, webPod]).1
      0 1 (by decide) (by decide) "web" (by decide) (by decide) (by decide) (by decide),
    (namespace_items_precede_namespaced openSpec [nsKindItem, webPod]).2.2⟩

/-- C7: when includeClusterResources is false no cluster-scoped item
appears in the Dependency Orderer output regardless of filter settings;
cluster-scoped selection ignores the namespace filter entirely; and the
flag defaults to true when unset. -/
theorem cluster_resources_gated_by_flag :
    (∀ (r : RestoreSpec) (items : List CatalogItem),
      r.includeClusterResources = some false →
      ∀ it ∈ dependencyOrder r items, it.ns ≠ none) ∧
    (∀ (r : RestoreSpec) (it : CatalogItem) (incNs excNs : List String),
      it.ns = none →
      itemSelected { r with includedNamespaces := incNs, excludedNamespaces := excNs } it =
        itemSelected r it) ∧
    (∀ r : RestoreSpec, r.includeClusterResources = none →
      effectiveIncludeClusterResources r = true) := by
  refine ⟨?_, ?_, ?_⟩
  · intro r items hflag it hit hns
    have heff : effectiveIncludeClusterResources r = false := by
      simp [effectiveIncludeClusterResources, hflag]
    rw [dependencyOrder, heff] at hit
    simp [List.mem_filter] at hit
    have h2 := hit.2
    unfold isClusterScoped at h2
    rw [hns] at h2
    exact Bool.noConfusion h2
  · intro r it incNs excNs hns
    simp [itemSelected, hns]
  · intro r h
    simp [effectiveIncludeClusterResources, h]

/-- Witness for C7 at the concrete request disabling cluster-scoped
resources over the mixed catalog, and at the concrete request leaving
the flag unset. -/
theorem cluster_resources_gated_by_flag_witness :
    noClusterSpec.includeClusterResources = some false ∧
    (∀ it ∈ dependencyOrder noClusterSpec mixedCatalog, it.ns ≠ none) ∧
    effectiveIncludeClusterResources openSpec = true :=
  ⟨rfl, cluster_resources_gated_by_flag.1 noClusterSpec mixedCatalog rfl,
    cluster_resources_gated_by_flag.2.2 openSpec rfl⟩

/-- C8: an empty namespace mapping leaves every item unchanged; a
namespace absent from the mapping is left unchanged; and cluster-scoped
items are never rewritten. -/
theorem namespace_mapping_identity :
    (∀ items : List CatalogItem, identityRewrite [] items = items) ∧
    (∀ (mapping : List (String × String)) (it : CatalogItem) (n : String),
      it.ns = some n → mapping.lookup n = none → rewriteItem mapping it = it) ∧
    (∀ (mapping : List (String × String)) (it : CatalogItem),
      it.ns = none → rewriteItem mapping it = it) := by
  have hone : ∀ it : CatalogItem, rewriteItem [] it = it := by
    intro it
    obtain ⟨nm, k, nso, lb⟩ := it
    cases nso <;> rfl
  refine ⟨?_, ?_, ?_⟩
  · intro items
    induction items with
    | nil => rfl
    | cons it rest ih =>
      simp only [identityRewrite, List.map_cons, hone it]
      simp only [identityRewrite] at ih
      rw [ih]
  · intro mapping it n hns hlook
    simp [rewriteItem, hns, hlook]
  · intro mapping it hns
    simp [rewriteItem, hns]

/-- Witness for C8 at the concrete five-item catalog, at a mapping not
containing the item namespace, and at a cluster-scoped item. -/
theorem namespace_mapping_identity_witness :
    identityRewrite [] sampleCatalog = sampleCatalog ∧
    rewriteItem [("a", "b")] (sampleItem "x") = sampleItem "x" ∧
    rewriteItem [("a", "b")] nsKindItem = nsKindItem :=
  ⟨namespace_mapping_identity.1 sampleCatalog,
    namespace_mapping_identity.2.1 [("a", "b")] (sampleItem "x") "ns1" rfl (by decide),
    namespace_mapping_identity.2.2 [("a", "b")] nsKindItem rfl⟩

/-- C9: the full pipeline (Filter Evaluator, Identity Rewriter,
Dependency Orderer) is a pure function, so two runs on identical
inputs produce the identical ordered item sequence. -/
theorem pipeline_deterministic (r₁ r₂ : RestoreSpec) (c₁ c₂ : List CatalogItem)
    (hr : r₁ = r₂) (hc : c₁ = c₂) :
    runPipeline r₁ c₁ = runPipeline r₂ c₂ := by
  rw [hr, hc]

/-- Witness for C9 at the concrete request and catalog. -/
theorem pipeline_deterministic_witness :
    runPipeline openSpec mixedCatalog = runPipeline openSpec mixedCatalog :=
  pipeline_deterministic openSpec openSpec mixedCatalog mixedCatalog rfl rfl

/-- C10: when both references are set, the backup is resolved from the
backup name, the schedule reference is ignored (the resolution does not
depend on the schedule name), and setting both is not a validation
error. -/
theorem backup_name_overrides_schedule (r : RestoreSpec)
    (hb : r.backupName ≠ "") (hs : r.scheduleName ≠ "") :
    resolveBackupRef r = some (BackupRef.byName r.backupName) ∧
    validateRestore r = [] ∧
    (∀ sched : String,
      resolveBackupRef { r with scheduleName := sched } =
        some (BackupRef.byName r.backupName)) := by
  refine ⟨?_, ?_, ?_⟩
  · simp [resolveBackupRef, hb]
  · simp [validateRestore, hb]
  · intro sched
    simp [resolveBackupRef, hb]

/-- Witness for C10 at the concrete request carrying both a backup and
a schedule name. -/
theorem backup_name_overrides_schedule_witness :
    bothRefsSpec.backupName = "b1" ∧
    bothRefsSpec.scheduleName = "sched1" ∧
    resolveBackupRef bothRefsSpec = some (BackupRef.byName "b1") ∧
    validateRestore bothRefsSpec = [] := by
  obtain ⟨h1, h2, _⟩ :=
    backup_name_overrides_schedule bothRefsSpec (by decide) (by decide)
  exact ⟨rfl, rfl, h1, h2⟩

end Velero
